import Mathlib

/-!
# Verification of the public-api gateway core

Shallow embedding of the request-processing kernel of the `public-api`
repository (token-bucket rate limiter, API-key registry, LRU cache wrapper,
upstream error classifier, coordinate engine) together with proofs of the
spec's testable properties.

JavaScript numbers are modelled as rationals (`ℚ`), `Date.now()` instants as
rationals in milliseconds, and JavaScript `Map`s as association lists with
the first matching key taking precedence (JS maps have unique keys, so this
agrees with the source).
-/

namespace PublicAPI

/-! ## Token-bucket rate limiter (src/lib/rateLimit, `part_009`)

Embeds `RATE_LIMIT_POLICIES` (types/rateLimit.ts) and the
`TokenBucketRateLimiter` methods `createBucket`, `refillTokens`,
`calculateResetTime`, `calculateRetryAfter`, `recordViolation` and
`checkLimit`. -/

/-- `RateLimitTier` from types/rateLimit.ts. -/
inductive RateLimitTier
  | anonymous
  | authenticated
  | premium
deriving DecidableEq, Repr

/-- The string a tier interpolates to in a template literal. -/
def RateLimitTier.name : RateLimitTier → String
  | .anonymous => "anonymous"
  | .authenticated => "authenticated"
  | .premium => "premium"

/-- `RateLimitConfig` from types/rateLimit.ts (without the `identifier`
field, matching the `Omit<RateLimitConfig, 'identifier'>` the limiter uses). -/
structure RateLimitConfig where
  requests : ℚ
  window : ℚ
deriving DecidableEq, Repr

/-- `RATE_LIMIT_POLICIES` from types/rateLimit.ts. -/
def RATE_LIMIT_POLICIES : RateLimitTier → RateLimitConfig
  | .anonymous => { requests := 100, window := 3600000 }
  | .authenticated => { requests := 1000, window := 3600000 }
  | .premium => { requests := 10000, window := 3600000 }

/-- `TokenBucketState` from types/rateLimit.ts. -/
structure TokenBucketState where
  tokens : ℚ
  lastRefill : ℚ
  capacity : ℚ
  refillRate : ℚ
deriving DecidableEq, Repr

/-- `RateLimitResult` from types/rateLimit.ts.  `remaining`, `reset` and
`retryAfter` are produced by `Math.floor`/`Math.ceil`, hence integers. -/
structure RateLimitResult where
  allowed : Bool
  remaining : ℤ
  reset : ℤ
  limit : ℚ
  retryAfter : Option ℤ := none
deriving DecidableEq, Repr

/-- `RateLimitViolation` from types/rateLimit.ts. -/
structure RateLimitViolation where
  identifier : String
  tier : RateLimitTier
  timestamp : ℚ
  attemptedRequests : ℕ
  limit : ℚ
deriving DecidableEq, Repr

/-- The limiter's private mutable fields: the bucket map, the violation log
and the statistics counters. -/
structure RateLimiterState where
  buckets : List (String × TokenBucketState)
  violations : List RateLimitViolation
  totalRequests : ℕ
  allowedCount : ℕ
  blockedCount : ℕ
  violationsCount : ℕ
deriving Repr

/-- JS `Map.get` on the association-list model. -/
def mapGet {α : Type} (m : List (String × α)) (k : String) : Option α :=
  (m.find? (fun p => p.1 = k)).map Prod.snd

/-- JS `Map.set` on the association-list model: replace the binding if the
key is present, otherwise append it. -/
def mapSet {α : Type} (m : List (String × α)) (k : String) (v : α) :
    List (String × α) :=
  if (m.find? (fun p => p.1 = k)).isSome then
    m.map (fun p => if p.1 = k then (k, v) else p)
  else
    m ++ [(k, v)]

/-- `getBucketKey`: `` `${tier}:${identifier}` ``. -/
def getBucketKey (identifier : String) (tier : RateLimitTier) : String :=
  tier.name ++ ":" ++ identifier

/-- `createBucket`: a fresh full bucket whose refill rate is
`requests / window` tokens per millisecond. -/
def createBucket (policy : RateLimitConfig) (now : ℚ) : TokenBucketState :=
  { tokens := policy.requests
    lastRefill := now
    capacity := policy.requests
    refillRate := policy.requests / policy.window }

/-- `refillTokens`: add `timePassed * refillRate` tokens, capped at
capacity; a non-positive elapsed time leaves the bucket untouched. -/
def refillTokens (bucket : TokenBucketState) (now : ℚ) : TokenBucketState :=
  let timePassed := now - bucket.lastRefill
  if timePassed ≤ 0 then bucket
  else
    let tokensToAdd := timePassed * bucket.refillRate
    { bucket with
        tokens := min bucket.capacity (bucket.tokens + tokensToAdd)
        lastRefill := now }

/-- `calculateResetTime`: `Math.ceil((lastRefill + timeToFill) / 1000)`. -/
def calculateResetTime (bucket : TokenBucketState) : ℤ :=
  ⌈(bucket.lastRefill + (bucket.capacity - bucket.tokens) / bucket.refillRate) / 1000⌉

/-- `calculateRetryAfter`: `Math.ceil((1 / refillRate) / 1000)`. -/
def calculateRetryAfter (bucket : TokenBucketState) : ℤ :=
  ⌈(1 / bucket.refillRate) / 1000⌉

/-- `recordViolation`: push a violation record, then keep only the records
of the last hour. -/
def recordViolation (violations : List RateLimitViolation) (identifier : String)
    (tier : RateLimitTier) (limit : ℚ) (now : ℚ) : List RateLimitViolation :=
  let v : RateLimitViolation :=
    { identifier := identifier, tier := tier, timestamp := now
      attemptedRequests := 1, limit := limit }
  (violations ++ [v]).filter (fun w => w.timestamp > now - 3600000)

/-- `checkLimit`: look the bucket up (creating a full one on a miss), refill
it, then either consume a token or record a violation.  Returns the decision
together with the mutated limiter state. -/
def checkLimit (st : RateLimiterState) (identifier : String)
    (tier : RateLimitTier) (now : ℚ) : RateLimitResult × RateLimiterState :=
  let policy := RATE_LIMIT_POLICIES tier
  let bucketKey := getBucketKey identifier tier
  let bucket0 := (mapGet st.buckets bucketKey).getD (createBucket policy now)
  let bucket1 := refillTokens bucket0 now
  if 1 ≤ bucket1.tokens then
    let bucket2 := { bucket1 with tokens := bucket1.tokens - 1 }
    ({ allowed := true
       remaining := ⌊bucket2.tokens⌋
       reset := calculateResetTime bucket2
       limit := policy.requests },
     { st with
         buckets := mapSet st.buckets bucketKey bucket2
         totalRequests := st.totalRequests + 1
         allowedCount := st.allowedCount + 1 })
  else
    ({ allowed := false
       remaining := 0
       reset := calculateResetTime bucket1
       limit := policy.requests
       retryAfter := some (calculateRetryAfter bucket1) },
     { st with
         buckets := mapSet st.buckets bucketKey bucket1
         totalRequests := st.totalRequests + 1
         blockedCount := st.blockedCount + 1
         violationsCount := st.violationsCount + 1
         violations := recordViolation st.violations identifier tier
           policy.requests now })

/-- The limiter state at process start. -/
def initialLimiterState : RateLimiterState :=
  { buckets := [], violations := [], totalRequests := 0, allowedCount := 0
    blockedCount := 0, violationsCount := 0 }

/-- The behaviour claim C1 ascribes to `checkLimit`, phrased with the spec's
formulas: the bucket found or created for the identifier and tier is first
refilled to `min(capacity, tokens + (now − lastRefill) × refillRate)` with
`lastRefill` set to `now`; if at least one token is available one token is
consumed and the call is allowed with `remaining = ⌊tokens⌋` and
`reset = ⌈(lastRefill + (capacity − tokens)/refillRate)/1000⌉` (both over the
post-consumption token count), otherwise the call is denied with
`remaining = 0`, `retryAfter = ⌈(1/refillRate)/1000⌉` and a violation record
appended. -/
def CheckLimitClaim (st : RateLimiterState) (identifier : String)
    (tier : RateLimitTier) (now : ℚ) : Prop :=
  let policy := RATE_LIMIT_POLICIES tier
  let bucketKey := getBucketKey identifier tier
  let b := (mapGet st.buckets bucketKey).getD (createBucket policy now)
  let refilled := min b.capacity (b.tokens + (now - b.lastRefill) * b.refillRate)
  let out := checkLimit st identifier tier now
  if 1 ≤ refilled then
    out.1.allowed = true ∧
    out.1.remaining = ⌊refilled - 1⌋ ∧
    out.1.reset = ⌈(now + (b.capacity - (refilled - 1)) / b.refillRate) / 1000⌉ ∧
    out.1.retryAfter = none ∧
    mapGet out.2.buckets bucketKey =
      some { tokens := refilled - 1, lastRefill := now
             capacity := b.capacity, refillRate := b.refillRate } ∧
    out.2.violations = st.violations
  else
    out.1.allowed = false ∧
    out.1.remaining = 0 ∧
    out.1.retryAfter = some ⌈(1 / b.refillRate) / 1000⌉ ∧
    mapGet out.2.buckets bucketKey =
      some { tokens := refilled, lastRefill := now
             capacity := b.capacity, refillRate := b.refillRate } ∧
    out.2.violations =
      recordViolation st.violations identifier tier policy.requests now ∧
    ({ identifier := identifier, tier := tier, timestamp := now
       attemptedRequests := 1, limit := policy.requests } : RateLimitViolation)
      ∈ out.2.violations

/-- Refilling a well-formed bucket (tokens within capacity, last refill not
in the future) at time `now` yields exactly the spec's refilled bucket. -/
theorem refillTokens_eq (b : TokenBucketState) (now : ℚ)
    (hcap : b.tokens ≤ b.capacity) (hlast : b.lastRefill ≤ now) :
    refillTokens b now =
      { tokens := min b.capacity (b.tokens + (now - b.lastRefill) * b.refillRate)
        lastRefill := now, capacity := b.capacity, refillRate := b.refillRate } := by
  unfold refillTokens
  by_cases h : now - b.lastRefill ≤ 0
  · have hnow : now = b.lastRefill := le_antisymm (by linarith) hlast
    simp only [if_pos h]
    cases b with
    | mk tokens lastRefill capacity refillRate =>
      simp only [hnow] at *
      simp only [sub_self, zero_mul, add_zero]
      simp [min_eq_right hcap]
  · simp only [if_neg h]

/-- `mapSet` followed by `mapGet` at the same key returns the new value. -/
theorem mapGet_mapSet_self {α : Type} (m : List (String × α)) (k : String)
    (v : α) : mapGet (mapSet m k v) k = some v := by
  unfold mapGet mapSet
  by_cases h : (m.find? (fun p => p.1 = k)).isSome
  · simp only [if_pos h]
    induction m with
    | nil => simp [List.find?] at h
    | cons p rest ih =>
      by_cases hp : p.1 = k
      · simp [List.find?, hp]
      · have h' : (rest.find? (fun p => p.1 = k)).isSome := by
          simpa [List.find?, hp] using h
        simpa [List.find?, hp] using ih h'
  · simp only [if_neg h]
    induction m with
    | nil => simp [List.find?]
    | cons p rest ih =>
      by_cases hp : p.1 = k
      · exfalso
        apply h
        simp [List.find?, hp]
      · have h' : ¬ (rest.find? (fun p => p.1 = k)).isSome := by
          intro hc
          apply h
          simp [List.find?, hp, hc]
        simpa [List.find?, hp] using ih h'

/-- **C1.** `checkLimit` refills the bucket to
`min(capacity, tokens + (now − lastRefill) × refillRate)` with `lastRefill`
updated to `now`, then — when at least one token is available — consumes one
token and allows the call with `remaining = ⌊tokens⌋` and
`reset = ⌈(lastRefill + (capacity − tokens)/refillRate)/1000⌉`; otherwise it
denies the call with `remaining = 0` and
`retryAfter = ⌈(1/refillRate)/1000⌉` and appends a violation record.  The
hypotheses are the bucket invariants maintained by the limiter: tokens never
exceed capacity, the last refill instant is not in the future, and the
refill rate is positive. -/
theorem checkLimit_spec (st : RateLimiterState) (identifier : String)
    (tier : RateLimitTier) (now : ℚ)
    (hcap : ∀ b, mapGet st.buckets (getBucketKey identifier tier) = some b →
      b.tokens ≤ b.capacity ∧ b.lastRefill ≤ now) :
    CheckLimitClaim st identifier tier now := by
  unfold CheckLimitClaim
  set policy := RATE_LIMIT_POLICIES tier with hpolicy
  set bucketKey := getBucketKey identifier tier with hkey
  set b := (mapGet st.buckets bucketKey).getD (createBucket policy now) with hb
  have hbcap : b.tokens ≤ b.capacity ∧ b.lastRefill ≤ now := by
    rw [hb]
    cases hfind : mapGet st.buckets bucketKey with
    | none =>
      simp only [Option.getD_none]
      exact ⟨le_rfl, le_rfl⟩
    | some b0 =>
      simp only [Option.getD_some]
      exact hcap b0 hfind
  have hrefill := refillTokens_eq b now hbcap.1 hbcap.2
  set refilled := min b.capacity (b.tokens + (now - b.lastRefill) * b.refillRate)
    with hrefilled
  simp only [checkLimit, ← hpolicy, ← hkey, ← hb, hrefill]
  by_cases hone : 1 ≤ refilled
  · simp only [← hrefilled, if_pos hone]
    and_intros
    any_goals trivial
    all_goals exact mapGet_mapSet_self _ _ _
  · simp only [← hrefilled, if_neg hone]
    and_intros
    any_goals trivial
    any_goals exact mapGet_mapSet_self _ _ _
    all_goals
      simp only [recordViolation, List.mem_filter, List.mem_append,
        List.mem_singleton]
      refine ⟨Or.inr trivial, ?_⟩
      simp only [decide_eq_true_eq]
      linarith

/-- Witness for C1: the claim holds concretely for a fresh anonymous bucket
at time 0. -/
theorem checkLimit_spec_witness :
    (∀ b, mapGet initialLimiterState.buckets
        (getBucketKey "192.168.1.1" RateLimitTier.anonymous) = some b →
        b.tokens ≤ b.capacity ∧ b.lastRefill ≤ (0 : ℚ)) ∧
    CheckLimitClaim initialLimiterState "192.168.1.1" RateLimitTier.anonymous 0 :=
  ⟨fun b hb => by simp [initialLimiterState, mapGet, List.find?] at hb,
   checkLimit_spec initialLimiterState "192.168.1.1" RateLimitTier.anonymous 0
     (fun b hb => by simp [initialLimiterState, mapGet, List.find?] at hb)⟩

/-! ## Error classes and the axios error handler (src/lib/errors, `part_014`)

Embeds the `AppError` subclasses as records of their observable attributes
(`name`, `code`, `statusCode`, `message`, `retryable`) and the
`handleAxiosError` classification function. -/

/-- The observable attributes of a thrown `AppError`. -/
structure AppErrorData where
  name : String
  code : String
  statusCode : ℕ
  message : String
  retryable : Bool
deriving DecidableEq, Repr

/-- The `ExternalAPIError` class: code `EXTERNAL_API_ERROR`, HTTP 502,
retryable. -/
def externalAPIError (message : String) : AppErrorData :=
  { name := "ExternalAPIError", code := "EXTERNAL_API_ERROR"
    statusCode := 502, message := message, retryable := true }

/-- The `TimeoutError` class: code `TIMEOUT_ERROR`, HTTP 504, retryable.
Defined in the source but never constructed by `handleAxiosError`. -/
def timeoutError (message : String) : AppErrorData :=
  { name := "TimeoutError", code := "TIMEOUT_ERROR"
    statusCode := 504, message := message, retryable := true }

/-- The fields of an axios failure that `handleAxiosError` inspects:
whether it is an axios error, the upstream HTTP status (absent when no
response arrived), the transport error code, and the message. -/
structure AxiosFailure where
  isAxiosError : Bool
  status : Option ℕ
  code : Option String
  message : String
deriving DecidableEq, Repr

/-- Outcome of `handleAxiosError` (the function always throws): either a
newly classified `AppError` or the original non-axios error rethrown. -/
inductive HandledOutcome
  | thrown (e : AppErrorData)
  | rethrown
deriving DecidableEq, Repr

/-- JS truthiness of `status && status >= n` for an optional status. -/
def statusAtLeast (status : Option ℕ) (n : ℕ) : Bool :=
  match status with
  | some s => s ≠ 0 && n ≤ s
  | none => false

/-- `handleAxiosError`: classify an upstream failure.  429, 5xx, 4xx,
connection errors and aborts all produce `ExternalAPIError`s distinguished
only by message. -/
def handleAxiosError (e : AxiosFailure) : HandledOutcome :=
  if e.isAxiosError then
    .thrown
      (if e.status = some 429 then
        externalAPIError "Rate limit exceeded from external API"
      else if statusAtLeast e.status 500 then
        externalAPIError "External API server error"
      else if statusAtLeast e.status 400 then
        externalAPIError "External API client error"
      else if e.code = some "ECONNREFUSED" ∨ e.code = some "ENOTFOUND" then
        externalAPIError "Cannot connect to external API"
      else if e.code = some "ECONNABORTED" then
        externalAPIError "External API request timeout"
      else externalAPIError e.message)
  else .rethrown

/-- An aborted (timed-out) upstream request as axios reports it: no
response, error code `ECONNABORTED`. -/
def abortedRequest : AxiosFailure :=
  { isAxiosError := true, status := none, code := some "ECONNABORTED"
    message := "timeout of 30000ms exceeded" }

/-- **C2 counterexample.** An aborted (timed-out) upstream request is
classified as `ExternalAPIError` with code `EXTERNAL_API_ERROR` and HTTP
status 502 — not, as the claim states, as `TIMEOUT_ERROR` with HTTP 504;
`handleAxiosError` never produces the `TimeoutError` shape. -/
theorem handleAxiosError_timeout_counterexample :
    handleAxiosError abortedRequest =
      .thrown (externalAPIError "External API request timeout") ∧
    (externalAPIError "External API request timeout").code = "EXTERNAL_API_ERROR" ∧
    (externalAPIError "External API request timeout").statusCode = 502 ∧
    ¬ ((externalAPIError "External API request timeout").code = "TIMEOUT_ERROR" ∧
       (externalAPIError "External API request timeout").statusCode = 504) ∧
    handleAxiosError abortedRequest ≠
      .thrown (timeoutError "External API request timeout") := by
  refine ⟨by decide, rfl, rfl, by decide, by decide⟩

/-- The classification C2 actually performs, branch by branch.  Every
failed upstream call is mapped to an `ExternalAPIError` (code
`EXTERNAL_API_ERROR`, HTTP 502, retryable); the five taxonomy cases are
distinguished only by the error message. -/
def AxiosClassificationClaim (e : AxiosFailure) : Prop :=
  (e.status = some 429 →
    handleAxiosError e =
      .thrown (externalAPIError "Rate limit exceeded from external API")) ∧
  (∀ s, e.status = some s → 500 ≤ s →
    handleAxiosError e = .thrown (externalAPIError "External API server error")) ∧
  (∀ s, e.status = some s → 400 ≤ s → s < 500 → s ≠ 429 →
    handleAxiosError e = .thrown (externalAPIError "External API client error")) ∧
  (e.status = none → e.code = some "ECONNREFUSED" ∨ e.code = some "ENOTFOUND" →
    handleAxiosError e = .thrown (externalAPIError "Cannot connect to external API")) ∧
  (e.status = none → e.code = some "ECONNABORTED" →
    handleAxiosError e = .thrown (externalAPIError "External API request timeout")) ∧
  (∀ out, handleAxiosError e = .thrown out →
    out.code = "EXTERNAL_API_ERROR" ∧ out.statusCode = 502 ∧ out.retryable = true)

/-- **C2 (amended).** For every failed upstream axios call the classifier
maps an HTTP 429 to the rate-limit message, a 5xx to the external-server
message, a 4xx other than 429 to the external-client message, connection
refused / unresolved host to the external-connection message, and an
aborted (timed-out) request to the timeout message — but every branch
produces an `ExternalAPIError` with code `EXTERNAL_API_ERROR` and HTTP
status 502, never `TIMEOUT_ERROR`/504. -/
theorem handleAxiosError_classification (e : AxiosFailure)
    (hax : e.isAxiosError = true) : AxiosClassificationClaim e := by
  unfold AxiosClassificationClaim handleAxiosError
  rw [hax]
  refine ⟨?_, ?_, ?_, ?_, ?_, ?_⟩
  · intro h429
    simp [h429]
  · intro s hs h500
    have h0 : s ≠ 0 := by omega
    have : statusAtLeast e.status 500 = true := by
      simp [statusAtLeast, hs, h0, h500]
    by_cases h429 : e.status = some 429
    · rw [hs] at h429
      have hs429 : s = 429 := by
        have := Option.some.inj h429
        omega
      omega
    · simp [h429, this]
  · intro s hs h400 hlt hne
    have h0 : s ≠ 0 := by omega
    have hge : statusAtLeast e.status 400 = true := by
      simp [statusAtLeast, hs, h0, h400]
    have hnot500 : statusAtLeast e.status 500 = false := by
      simp only [statusAtLeast, hs]
      simp
      omega
    have h429 : ¬ e.status = some 429 := by
      rw [hs]
      intro hc
      exact hne (by injection hc)
    simp [h429, hnot500, hge]
  · intro hns hcode
    have h1 : ¬ e.status = some 429 := by rw [hns]; simp
    have h2 : statusAtLeast e.status 500 = false := by simp [statusAtLeast, hns]
    have h3 : statusAtLeast e.status 400 = false := by simp [statusAtLeast, hns]
    simp [h1, h2, h3, hcode]
  · intro hns hcode
    have h1 : ¬ e.status = some 429 := by rw [hns]; simp
    have h2 : statusAtLeast e.status 500 = false := by simp [statusAtLeast, hns]
    have h3 : statusAtLeast e.status 400 = false := by simp [statusAtLeast, hns]
    by_cases hconn : e.code = some "ECONNREFUSED" ∨ e.code = some "ENOTFOUND"
    · rcases hconn with hc | hc <;> rw [hc] at hcode <;> exact absurd (by injection hcode) (by decide)
    · simp [h1, h2, h3, hconn, hcode]
  · intro out hout
    have : out =
        (if e.status = some 429 then
          externalAPIError "Rate limit exceeded from external API"
        else if statusAtLeast e.status 500 then
          externalAPIError "External API server error"
        else if statusAtLeast e.status 400 then
          externalAPIError "External API client error"
        else if e.code = some "ECONNREFUSED" ∨ e.code = some "ENOTFOUND" then
          externalAPIError "Cannot connect to external API"
        else if e.code = some "ECONNABORTED" then
          externalAPIError "External API request timeout"
        else externalAPIError e.message) := by
      injection hout.symm
    rw [this]
    split <;> first
      | exact ⟨rfl, rfl, rfl⟩
      | (split <;> first
          | exact ⟨rfl, rfl, rfl⟩
          | (split <;> first
              | exact ⟨rfl, rfl, rfl⟩
              | (split <;> first
                  | exact ⟨rfl, rfl, rfl⟩
                  | (split <;> exact ⟨rfl, rfl, rfl⟩))))

/-- Witness for C2 (amended): the aborted request is an axios error and the
classification claim holds for it concretely. -/
theorem handleAxiosError_classification_witness :
    abortedRequest.isAxiosError = true ∧ AxiosClassificationClaim abortedRequest :=
  ⟨rfl, handleAxiosError_classification abortedRequest rfl⟩

/-! ## API-key registry (src/src/lib/auth/ApiKeyManager.ts)

Embeds `APIKeyInfo`, the private helpers `isExpired`, `getDaysRemaining`,
`isExpiringSoon`, and the methods `getKey`, `maskKey` and `getStats`.
`getKey` throws plain JavaScript `Error`s (the `APIKeyError` class from the
error module is never used by the manager), modelled as a record carrying
the constructor name and message. -/

/-- Key status from the `APIKeyInfo` type. -/
inductive KeyStatus
  | active
  | expired
  | suspended
deriving DecidableEq, Repr

/-- `APIKeyInfo`: one credential record.  Instants are epoch milliseconds. -/
structure APIKeyInfo where
  key : String
  provider : String
  expiryDate : ℚ
  status : KeyStatus
  lastUsed : Option ℚ := none
deriving DecidableEq, Repr

/-- A thrown JavaScript error with its constructor name (`"Error"` for a
plain `new Error(...)`, `"APIKeyError"` for the unused `APIKeyError`
class). -/
structure JSError where
  name : String
  message : String
deriving DecidableEq, Repr

/-- `new Error(msg)`. -/
def plainError (message : String) : JSError :=
  { name := "Error", message := message }

/-- The registry's key map. -/
abbrev KeyRegistry := List (String × APIKeyInfo)

/-- `isExpired`: `new Date() > expiryDate`. -/
def isExpired (now expiryDate : ℚ) : Bool := now > expiryDate

/-- `getDaysRemaining`: `Math.ceil((expiry − now) / 86,400,000)`. -/
def getDaysRemaining (now expiryDate : ℚ) : ℤ :=
  ⌈(expiryDate - now) / (1000 * 60 * 60 * 24)⌉

/-- `isExpiringSoon` with the default 30-day threshold:
`0 < daysRemaining ≤ 30`. -/
def isExpiringSoon (now expiryDate : ℚ) : Bool :=
  0 < getDaysRemaining now expiryDate ∧ getDaysRemaining now expiryDate ≤ 30

/-- `getKey`: dispense the secret for a provider.  A known provider's
record is checked for status and expiry and has its last-used instant
updated; an unknown provider falls back to the primary record's secret with
no checks and no mutation. -/
def getKey (keys : KeyRegistry) (provider : String) (now : ℚ) :
    Except JSError (String × KeyRegistry) :=
  match mapGet keys provider with
  | none =>
    match mapGet keys "primary" with
    | some primaryKey => .ok (primaryKey.key, keys)
    | none => .error (plainError ("API key not found for provider: " ++ provider))
  | some keyInfo =>
    if keyInfo.status ≠ .active then
      .error (plainError ("API key for " ++ provider ++ " is not active"))
    else if isExpired now keyInfo.expiryDate then
      .error (plainError ("API key for " ++ provider ++ " has expired"))
    else
      .ok (keyInfo.key,
        mapSet keys provider { keyInfo with lastUsed := some now })

/-- A registry whose only record is a suspended primary key. -/
def suspendedPrimaryRegistry : KeyRegistry :=
  [("primary",
    { key := "PRIMARYSECRET1234567890", provider := "primary"
      expiryDate := 4102444800000, status := KeyStatus.suspended })]

/-- Equation for `getKey` when the provider has a record. -/
theorem getKey_known (keys : KeyRegistry) (provider : String) (now : ℚ)
    (info : APIKeyInfo) (h : mapGet keys provider = some info) :
    getKey keys provider now =
      if info.status ≠ .active then
        .error (plainError ("API key for " ++ provider ++ " is not active"))
      else if isExpired now info.expiryDate then
        .error (plainError ("API key for " ++ provider ++ " has expired"))
      else
        .ok (info.key, mapSet keys provider { info with lastUsed := some now }) := by
  unfold getKey
  rw [h]

/-- Equation for `getKey` when the provider is unknown. -/
theorem getKey_unknown (keys : KeyRegistry) (provider : String) (now : ℚ)
    (h : mapGet keys provider = none) :
    getKey keys provider now =
      match mapGet keys "primary" with
      | some primaryKey => .ok (primaryKey.key, keys)
      | none => .error (plainError ("API key not found for provider: " ++ provider)) := by
  unfold getKey
  rw [h]

/-- **C5 counterexample.** With a suspended primary record, `getKey` for an
unknown provider succeeds and dispenses the suspended primary secret (the
claim says it must fail whenever the selected record's status is not
active), and `getKey` for the primary itself fails with a plain `Error`,
not an `APIKeyError`. -/
theorem getKey_claim_counterexample :
    (mapGet suspendedPrimaryRegistry "primary").map APIKeyInfo.status =
      some KeyStatus.suspended ∧
    getKey suspendedPrimaryRegistry "unknown-service" 0 =
      .ok ("PRIMARYSECRET1234567890", suspendedPrimaryRegistry) ∧
    getKey suspendedPrimaryRegistry "primary" 0 =
      .error (plainError "API key for primary is not active") ∧
    (plainError "API key for primary is not active").name ≠ "APIKeyError" := by
  refine ⟨by decide, by rfl, by rfl, by decide⟩

/-- The amended behaviour of `getKey`: the call succeeds exactly when the
provider's own record is active and unexpired, or — for an unknown
provider — when a primary record exists (with no status or expiry check on
it); every failure is a plain `Error`, never an `APIKeyError`. -/
def GetKeyClaim (keys : KeyRegistry) (provider : String) (now : ℚ) : Prop :=
  ((∃ r, getKey keys provider now = .ok r) ↔
    (match mapGet keys provider with
     | some info => info.status = KeyStatus.active ∧ isExpired now info.expiryDate = false
     | none => (mapGet keys "primary").isSome)) ∧
  (∀ e, getKey keys provider now = .error e → e.name = "Error")

/-- **C5 (amended).** `getKey` returns the stored secret for a known
provider and fails exactly when that record's status is not active or its
expiry instant is in the past; for an unknown provider it returns the
primary secret with no status or expiry check, failing only when no primary
record exists.  All failures are plain `Error`s — no `APIKeyError` is ever
raised. -/
theorem getKey_spec (keys : KeyRegistry) (provider : String) (now : ℚ) :
    GetKeyClaim keys provider now := by
  unfold GetKeyClaim
  cases hfind : mapGet keys provider with
  | none =>
    rw [getKey_unknown keys provider now hfind]
    cases hprim : mapGet keys "primary" with
    | none =>
      refine ⟨⟨?_, ?_⟩, ?_⟩
      · rintro ⟨r, hr⟩
        exact Except.noConfusion hr
      · intro h
        simp at h
      · intro e he
        injection he with h
        rw [← h]
        rfl
    | some p =>
      refine ⟨⟨?_, ?_⟩, ?_⟩
      · intro _
        simp
      · intro _
        exact ⟨(p.key, keys), rfl⟩
      · intro e he
        exact Except.noConfusion he
  | some info =>
    rw [getKey_known keys provider now info hfind]
    by_cases hstat : info.status = KeyStatus.active
    · by_cases hexp : isExpired now info.expiryDate
      · rw [if_neg (by simp [hstat]), if_pos hexp]
        refine ⟨⟨?_, ?_⟩, ?_⟩
        · rintro ⟨r, hr⟩
          exact Except.noConfusion hr
        · rintro ⟨_, h2⟩
          rw [hexp] at h2
          exact Bool.noConfusion h2
        · intro e he
          injection he with h
          rw [← h]
          rfl
      · rw [if_neg (by simp [hstat]), if_neg hexp]
        refine ⟨⟨?_, ?_⟩, ?_⟩
        · intro _
          exact ⟨hstat, by simpa using hexp⟩
        · intro _
          exact ⟨_, rfl⟩
        · intro e he
          exact Except.noConfusion he
    · rw [if_pos (by simp [hstat])]
      refine ⟨⟨?_, ?_⟩, ?_⟩
      · rintro ⟨r, hr⟩
        exact Except.noConfusion hr
      · rintro ⟨h1, _⟩
        exact absurd h1 hstat
      · intro e he
        injection he with h
        rw [← h]
        rfl

/-- Witness for C5 (amended): the characterization instantiated at the
suspended-primary registry, showing the concrete failure is a plain
`Error`. -/
theorem getKey_spec_witness :
    getKey suspendedPrimaryRegistry "primary" 0 =
      .error (plainError "API key for primary is not active") ∧
    (plainError "API key for primary is not active").name = "Error" :=
  ⟨by rfl,
   (getKey_spec suspendedPrimaryRegistry "primary" 0).2
     (plainError "API key for primary is not active") (by rfl)⟩

/-- **C10.** For a provider with no record in the registry, `getKey`
returns the primary record's secret through the fallback branch, with no
status or expiry check on the primary record and no mutation of the
registry (in particular no last-used update) — so a suspended or expired
primary secret is still dispensed. -/
theorem getKey_fallback_unchecked (keys : KeyRegistry) (provider : String)
    (now : ℚ) (p : APIKeyInfo)
    (hmiss : mapGet keys provider = none)
    (hprim : mapGet keys "primary" = some p) :
    getKey keys provider now = .ok (p.key, keys) := by
  unfold getKey
  rw [hmiss, hprim]

/-- Witness for C10: the fallback dispenses the suspended primary secret
and leaves the registry untouched. -/
theorem getKey_fallback_unchecked_witness :
    mapGet suspendedPrimaryRegistry "unknown-service" = none ∧
    (mapGet suspendedPrimaryRegistry "primary").map APIKeyInfo.status =
      some KeyStatus.suspended ∧
    getKey suspendedPrimaryRegistry "unknown-service" 0 =
      .ok ("PRIMARYSECRET1234567890", suspendedPrimaryRegistry) :=
  ⟨by decide, by decide,
   getKey_fallback_unchecked suspendedPrimaryRegistry "unknown-service" 0
     { key := "PRIMARYSECRET1234567890", provider := "primary"
       expiryDate := 4102444800000, status := KeyStatus.suspended }
     (by decide) (by decide)⟩

/-! ## Key statistics and the health check (ApiKeyManager.getStats,
app/api/health/route.ts `checkApiKeyManager`) -/

/-- The record returned by `ApiKeyManager.getStats`. -/
structure KeyStats where
  totalKeys : ℕ
  activeKeys : ℕ
  expiredKeys : ℕ
  expiringSoon : ℕ
deriving DecidableEq, Repr

/-- `getStats`: bucket every record into exactly one of expired /
expiring-soon / active. -/
def getStats (keys : KeyRegistry) (now : ℚ) : KeyStats :=
  let infos := keys.map Prod.snd
  { totalKeys := keys.length
    activeKeys := (infos.filter (fun i =>
      !isExpired now i.expiryDate && !isExpiringSoon now i.expiryDate)).length
    expiredKeys := (infos.filter (fun i => isExpired now i.expiryDate)).length
    expiringSoon := (infos.filter (fun i =>
      !isExpired now i.expiryDate && isExpiringSoon now i.expiryDate)).length }

/-- Component status of the health endpoint. -/
inductive SystemStatus
  | healthy
  | degraded
  | down
deriving DecidableEq, Repr

/-- `checkApiKeyManager` (health route): `down` when no key counts as
active, else `degraded` when any key is expiring soon, else `healthy`. -/
def checkApiKeyManager (keys : KeyRegistry) (now : ℚ) : SystemStatus :=
  let stats := getStats keys now
  if stats.activeKeys = 0 then .down
  else if 0 < stats.expiringSoon then .degraded
  else .healthy

/-- A registry whose only key is unexpired but expires in ten days
(relative to `now = 0`): `0 < days-until-expiry = 10 ≤ 30`. -/
def expiringSoonRegistry : KeyRegistry :=
  [("primary",
    { key := "PRIMARYSECRET1234567890", provider := "primary"
      expiryDate := 864000000, status := KeyStatus.active })]

/-- **C6 counterexample.** A registry whose only key is unexpired with
`0 < days-until-expiry ≤ 30` is reported `down`, not `degraded`: `getStats`
buckets are mutually exclusive, so the expiring key is not counted active
and `activeKeys = 0` triggers the `down` branch. -/
theorem checkApiKeyManager_counterexample :
    isExpired 0 (864000000 : ℚ) = false ∧
    getDaysRemaining 0 (864000000 : ℚ) = 10 ∧
    isExpiringSoon 0 (864000000 : ℚ) = true ∧
    getStats expiringSoonRegistry 0 =
      { totalKeys := 1, activeKeys := 0, expiredKeys := 0, expiringSoon := 1 } ∧
    checkApiKeyManager expiringSoonRegistry 0 = SystemStatus.down ∧
    checkApiKeyManager expiringSoonRegistry 0 ≠ SystemStatus.degraded := by
  have h1 : isExpired 0 (864000000 : ℚ) = false := by decide
  have h2 : getDaysRemaining 0 (864000000 : ℚ) = 10 := by
    unfold getDaysRemaining
    norm_num
  have h3 : isExpiringSoon 0 (864000000 : ℚ) = true := by
    simp [isExpiringSoon, h2]
  have h4 : getStats expiringSoonRegistry 0 =
      { totalKeys := 1, activeKeys := 0, expiredKeys := 0, expiringSoon := 1 } := by
    simp [getStats, expiringSoonRegistry, List.filter, h1, h3]
  refine ⟨h1, h2, h3, h4, ?_, ?_⟩
  · simp [checkApiKeyManager, h4]
  · simp [checkApiKeyManager, h4]

/-- **C6 (amended).** The health endpoint reports the key registry `down`
exactly when `getStats` counts zero active keys — where a key expiring
within 30 days is counted in `expiringSoon`, not in `activeKeys` — and
`degraded` exactly when at least one key is fully active and some key is
expiring within 30 days.  In particular a registry whose only key has
`0 < days-until-expiry ≤ 30` is reported `down`. -/
theorem checkApiKeyManager_spec (keys : KeyRegistry) (now : ℚ) :
    (checkApiKeyManager keys now = SystemStatus.down ↔
      (getStats keys now).activeKeys = 0) ∧
    (checkApiKeyManager keys now = SystemStatus.degraded ↔
      0 < (getStats keys now).activeKeys ∧ 0 < (getStats keys now).expiringSoon) := by
  unfold checkApiKeyManager
  by_cases h0 : (getStats keys now).activeKeys = 0
  · simp [h0]
  · by_cases h1 : 0 < (getStats keys now).expiringSoon
    · simp [h0, h1, Nat.pos_of_ne_zero h0]
    · simp [h0, h1]

/-! ## Secret masking (`ApiKeyManager.maskKey`, `logger.maskApiKey`)

Strings are modelled as their lists of UTF-16 units (characters); both
masking functions operate only on length, prefixes and repetition, for
which the list model is exact. -/

/-- `maskKey` (ApiKeyManager): short secrets collapse to `"****"`, longer
ones keep the first four characters followed by at most twenty
asterisks. -/
def maskKey (key : List Char) : List Char :=
  if key.length < 8 then ['*', '*', '*', '*']
  else key.take 4 ++ List.replicate (min (key.length - 4) 20) '*'

/-- `maskApiKey` (logger): same shape but with an unbounded asterisk run. -/
def maskApiKey (key : List Char) : List Char :=
  if key.length < 8 then ['*', '*', '*', '*']
  else key.take 4 ++ List.replicate (key.length - 4) '*'

/-- **C7 counterexample.** For the five-character secret `"abcde"` the
masking operation returns `"****"`: the first four characters of the secret
are *not* kept. -/
theorem maskKey_counterexample :
    maskKey ['a', 'b', 'c', 'd', 'e'] = ['*', '*', '*', '*'] ∧
    (maskKey ['a', 'b', 'c', 'd', 'e']).take 4 ≠
      (['a', 'b', 'c', 'd', 'e'] : List Char).take 4 ∧
    maskApiKey ['a', 'b', 'c', 'd', 'e'] = ['*', '*', '*', '*'] := by
  refine ⟨by decide, by decide, by decide⟩

/-- The amended masking property: secrets of length ≥ 8 keep their first
four characters followed by an asterisk run (bounded by 20 in `maskKey`);
shorter secrets collapse to `"****"`; and in every case each output
character at position ≥ 4 — indeed every output character not copied from
the first four — is an asterisk, so no character of the secret beyond
position 4 ever appears. -/
def MaskKeyClaim (key : List Char) : Prop :=
  (8 ≤ key.length →
    maskKey key = key.take 4 ++ List.replicate (min (key.length - 4) 20) '*' ∧
    maskApiKey key = key.take 4 ++ List.replicate (key.length - 4) '*') ∧
  (key.length < 8 →
    maskKey key = ['*', '*', '*', '*'] ∧
    maskApiKey key = ['*', '*', '*', '*']) ∧
  (∀ c ∈ (maskKey key).drop 4, c = '*') ∧
  (∀ c ∈ (maskApiKey key).drop 4, c = '*')

/-- **C7 (amended).** The masking operations keep the first four characters
only for secrets of length at least eight (returning `"****"` for shorter
ones), replace the remainder with asterisks — `maskKey` with a run bounded
at twenty, the logger's `maskApiKey` unbounded — and in all cases every
output character beyond position 4 is an asterisk, so no character of the
secret beyond position 4 appears in the masked output. -/
theorem maskKey_spec (key : List Char) : MaskKeyClaim key := by
  unfold MaskKeyClaim maskKey maskApiKey
  by_cases h : key.length < 8
  · refine ⟨fun h8 => absurd h (by omega), fun _ => ⟨if_pos h, if_pos h⟩, ?_, ?_⟩
    · rw [if_pos h]
      intro c hc
      simp at hc
    · rw [if_pos h]
      intro c hc
      simp at hc
  · refine ⟨fun _ => ⟨if_neg h, if_neg h⟩, fun h8 => absurd h8 (by omega), ?_, ?_⟩
    · rw [if_neg h]
      intro c hc
      rw [List.drop_append_of_le_length (by simp; omega)] at hc
      have : (key.take 4).drop 4 = [] := by
        apply List.drop_eq_nil_of_le
        simp
      rw [this, List.nil_append] at hc
      exact List.eq_of_mem_replicate hc
    · rw [if_neg h]
      intro c hc
      rw [List.drop_append_of_le_length (by simp; omega)] at hc
      have : (key.take 4).drop 4 = [] := by
        apply List.drop_eq_nil_of_le
        simp
      rw [this, List.nil_append] at hc
      exact List.eq_of_mem_replicate hc

/-- Witness for C7 (amended): the masking claim instantiated on a
twelve-character secret, whose mask keeps `"abcd"` and replaces the
remaining eight characters with asterisks. -/
theorem maskKey_spec_witness :
    8 ≤ (['a', 'b', 'c', 'd', 'e', 'f', 'g', 'h', 'i', 'j', 'k', 'l'] : List Char).length ∧
    maskKey ['a', 'b', 'c', 'd', 'e', 'f', 'g', 'h', 'i', 'j', 'k', 'l'] =
      ['a', 'b', 'c', 'd', '*', '*', '*', '*', '*', '*', '*', '*'] :=
  ⟨by decide,
   by
    have h := (maskKey_spec
      ['a', 'b', 'c', 'd', 'e', 'f', 'g', 'h', 'i', 'j', 'k', 'l']).1 (by decide)
    rw [h.1]
    decide⟩

/-! ## Coordinate engine (src/src/lib/coordinate/CoordinateEngine.ts,
src/src/lib/types — coordinate types, `part_010` — COORDINATE_SYSTEMS)

Coordinates are rationals.  The proj4 projection itself is an external
numerical library; `transform` is parameterized over it, which is enough to
settle the claims: the `from == to` branch returns before the projection
(and before validation) is ever consulted. -/

/-- `CoordinateSystemCode` from types (seven systems, closed set). -/
inductive CoordinateSystemCode
  | WGS84
  | GRS80_CENTRAL
  | GRS80_WEST
  | GRS80_EAST
  | BESSEL_CENTRAL
  | KATEC
  | UTM_K
deriving DecidableEq, Repr

/-- Unit of a coordinate system. -/
inductive CoordUnit
  | degree
  | meter
deriving DecidableEq, Repr

/-- The unit column of `COORDINATE_SYSTEMS` (systems.ts): only WGS84 is
degree-valued. -/
def systemUnit : CoordinateSystemCode → CoordUnit
  | .WGS84 => .degree
  | _ => .meter

/-- A point: geographic `{longitude, latitude}` or projected `{x, y}`. -/
inductive Point
  | geo (longitude latitude : ℚ)
  | proj (x y : ℚ)
deriving DecidableEq, Repr

/-- The `ProjectedPoint` (`{x, y}`) shape. -/
structure ProjectedPoint where
  x : ℚ
  y : ℚ
deriving DecidableEq, Repr

/-- `ProjectedPoint` viewed as a `Point`. -/
def ProjectedPoint.toPoint (p : ProjectedPoint) : Point := .proj p.x p.y

/-- `normalizePoint`: map longitude to `x`, latitude to `y`; projected
points pass through. -/
def normalizePoint : Point → ProjectedPoint
  | .geo lon lat => { x := lon, y := lat }
  | .proj x y => { x := x, y := y }

/-- `CoordinateSystemBounds` from types/coordinate. -/
structure CoordinateSystemBounds where
  minX : ℚ
  maxX : ℚ
  minY : ℚ
  maxY : ℚ
deriving DecidableEq, Repr

/-- `COORDINATE_SYSTEM_BOUNDS`: per-system validation ranges (the WGS84
entry is the Korean bounding box, not the full degree range). -/
def COORDINATE_SYSTEM_BOUNDS :
    CoordinateSystemCode → Option CoordinateSystemBounds
  | .WGS84 => some { minX := 124, maxX := 132, minY := 33, maxY := 43 }
  | .GRS80_CENTRAL => some { minX := 100000, maxX := 300000, minY := 400000, maxY := 800000 }
  | .GRS80_WEST => some { minX := 100000, maxX := 300000, minY := 400000, maxY := 800000 }
  | .GRS80_EAST => some { minX := 100000, maxX := 300000, minY := 400000, maxY := 800000 }
  | .BESSEL_CENTRAL => some { minX := 100000, maxX := 300000, minY := 300000, maxY := 700000 }
  | .KATEC => some { minX := 100000, maxX := 300000, minY := 300000, maxY := 700000 }
  | .UTM_K => some { minX := 900000, maxX := 1100000, minY := 1800000, maxY := 2200000 }

/-- `Object.entries(COORDINATE_SYSTEM_BOUNDS)` iterates the literal's
insertion order. -/
def boundsIterationOrder : List CoordinateSystemCode :=
  [.WGS84, .GRS80_CENTRAL, .GRS80_WEST, .GRS80_EAST, .BESSEL_CENTRAL,
   .KATEC, .UTM_K]

/-- Whether a projected point lies in a system's bounds entry. -/
def inBounds (x y : ℚ) (c : CoordinateSystemCode) : Bool :=
  match COORDINATE_SYSTEM_BOUNDS c with
  | none => false
  | some b => b.minX ≤ x ∧ x ≤ b.maxX ∧ b.minY ≤ y ∧ y ≤ b.maxY

/-- `detectSystem`: a geographic point in the global degree range is WGS84;
a projected point is matched against each system's bounds in iteration
order; otherwise `null`. -/
def detectSystem : Point → Option CoordinateSystemCode
  | .geo lon lat =>
    if -180 ≤ lon ∧ lon ≤ 180 ∧ -90 ≤ lat ∧ lat ≤ 90 then
      some .WGS84
    else
      none
  | .proj x y => boundsIterationOrder.find? (inBounds x y)

/-- `validatePoint`'s error list.  Degree systems range-check the
geographic fields (a projected point read through the `GeoPoint` cast has
`undefined` fields, and every comparison against `undefined` is false, so
no error is recorded); meter systems only require finiteness, which the
rational model always satisfies. -/
def validateErrors (p : Point) (system : CoordinateSystemCode) : List String :=
  match systemUnit system with
  | .degree =>
    match p with
    | .geo lon lat =>
      (if lon < -180 ∨ lon > 180 then ["Longitude out of range (-180 to 180)"] else []) ++
      (if lat < -90 ∨ lat > 90 then ["Latitude out of range (-90 to 90)"] else [])
    | .proj _ _ => []
  | .meter => []

/-- `pointToArray`. -/
def pointToArray : Point → ℚ × ℚ
  | .geo lon lat => (lon, lat)
  | .proj x y => (x, y)

/-- `arrayToPoint`. -/
def arrayToPoint (a : ℚ × ℚ) : CoordUnit → Point
  | .degree => .geo a.1 a.2
  | .meter => .proj a.1 a.2

/-- `transform`, parameterized over the proj4 conversion (`conv src dst`
maps the input array to the output array).  A same-system transform returns
the normalized point before any validation; otherwise the input is
validated, projected, the result validated and normalized.  Errors are the
thrown `CoordinateError`s. -/
def transform (conv : CoordinateSystemCode → CoordinateSystemCode → ℚ × ℚ → ℚ × ℚ)
    (point : Point) (src dst : CoordinateSystemCode) : Except String Point :=
  if src = dst then
    .ok (normalizePoint point).toPoint
  else if validateErrors point src ≠ [] then
    .error "Failed to transform: input validation"
  else
    let inputArray := pointToArray point
    let outputArray := conv src dst inputArray
    let result := arrayToPoint outputArray (systemUnit dst)
    if validateErrors result dst ≠ [] then
      .error "Failed to transform: output validation"
    else
      .ok (normalizePoint result).toPoint

/-- **C4.** For every point — geographic or projected — and every supported
system `S`, `transform(P, S, S)` is exactly `normalizePoint(P)` (longitude
to `x`, latitude to `y`), with no projection applied and no validation
performed, whatever the proj4 conversion does and even when the point lies
outside the system's valid range. -/
theorem transform_same_system
    (conv : CoordinateSystemCode → CoordinateSystemCode → ℚ × ℚ → ℚ × ℚ)
    (point : Point) (s : CoordinateSystemCode) :
    transform conv point s s = .ok (normalizePoint point).toPoint := by
  unfold transform
  rw [if_pos rfl]

/-- The identity stand-in for the proj4 conversion (never consulted by the
claims below). -/
def trivialConv : CoordinateSystemCode → CoordinateSystemCode → ℚ × ℚ → ℚ × ℚ :=
  fun _ _ a => a

/-- **C3 counterexample.** The point `(0, 0)` is accepted by
`transform(_, WGS84, WGS84)` (it is even a valid WGS84 geographic point),
and the returned `{x, y}` point is detected as *no* system at all: the
`{x, y}` form bypasses the geographic WGS84 branch of `detectSystem`, and
`(0,0)` lies in no entry of the bounds table — in particular in no system
with a bounding box identical to WGS84's. -/
theorem detectSystem_after_transform_counterexample :
    validateErrors (Point.geo 0 0) CoordinateSystemCode.WGS84 = [] ∧
    transform trivialConv (Point.geo 0 0) CoordinateSystemCode.WGS84
      CoordinateSystemCode.WGS84 = .ok (Point.proj 0 0) ∧
    detectSystem (Point.proj 0 0) = none ∧
    (¬ ∃ c : CoordinateSystemCode, detectSystem (Point.proj 0 0) = some c ∧
      COORDINATE_SYSTEM_BOUNDS c = COORDINATE_SYSTEM_BOUNDS CoordinateSystemCode.WGS84) := by
  refine ⟨by decide, by rfl, by decide, ?_⟩
  rintro ⟨c, hc, -⟩
  rw [show detectSystem (Point.proj 0 0) = none from by decide] at hc
  exact Option.noConfusion hc

/-- **C3 (amended).** `detectSystem` applied to the `{x, y}` point returned
by `transform` yields the first system in the bounds-table iteration order
whose bounding box contains the point (or `null` when none does) — not
necessarily the target system.  In particular, for a WGS84 target the
target is re-detected exactly when the returned point lies inside the
Korean bounding box `[124,132] × [33,43]` that is WGS84's entry in the
table. -/
theorem detectSystem_after_transform_wgs84
    (conv : CoordinateSystemCode → CoordinateSystemCode → ℚ × ℚ → ℚ × ℚ)
    (point : Point)
    (hx : 124 ≤ (normalizePoint point).x ∧ (normalizePoint point).x ≤ 132)
    (hy : 33 ≤ (normalizePoint point).y ∧ (normalizePoint point).y ≤ 43) :
    transform conv point CoordinateSystemCode.WGS84 CoordinateSystemCode.WGS84 =
      .ok (normalizePoint point).toPoint ∧
    detectSystem (normalizePoint point).toPoint = some CoordinateSystemCode.WGS84 := by
  refine ⟨transform_same_system conv point _, ?_⟩
  simp only [ProjectedPoint.toPoint, detectSystem, boundsIterationOrder]
  rw [List.find?_cons_of_pos]
  simp only [inBounds, COORDINATE_SYSTEM_BOUNDS, decide_eq_true_eq]
  exact ⟨hx.1, hx.2, hy.1, hy.2⟩

/-- Witness for C3 (amended): the Seoul-area point `(127, 37)` is inside
the Korean box, and the same-system transform output is re-detected as
WGS84. -/
theorem detectSystem_after_transform_wgs84_witness :
    (124 ≤ (normalizePoint (Point.geo 127 37)).x ∧
      (normalizePoint (Point.geo 127 37)).x ≤ 132) ∧
    (33 ≤ (normalizePoint (Point.geo 127 37)).y ∧
      (normalizePoint (Point.geo 127 37)).y ≤ 43) ∧
    (transform trivialConv (Point.geo 127 37)
        CoordinateSystemCode.WGS84 CoordinateSystemCode.WGS84 =
      .ok (normalizePoint (Point.geo 127 37)).toPoint ∧
    detectSystem (normalizePoint (Point.geo 127 37)).toPoint =
      some CoordinateSystemCode.WGS84) :=
  ⟨by decide, by decide,
   detectSystem_after_transform_wgs84 trivialConv
     (Point.geo 127 37) (by decide) (by decide)⟩

/-! ## LRU cache (src/lib/cache, `part_007`)

The `LRUCacheManager` wraps the `lru-cache` npm library configured with
`max = 1000`, `maxSize = 50 MiB`, per-entry `ttl` and `size`, and
`updateAgeOnGet = true`.  The library is modelled from its documented
contract: the store keeps entries in recency order (most recent first);
`set` inserts at the front and evicts least-recently-used entries while the
count or size bound is exceeded, rejecting any single item larger than
`maxSize` (the `maxEntrySize` default); `get` of a stale entry (age
strictly beyond its positive ttl) deletes it and misses, and a fresh hit
refreshes recency and — with `updateAgeOnGet` — age.  The eviction loop is
written with an explicit fuel equal to the list length, which bounds the
number of drops the loop can perform. -/

/-- `CacheType` from types/cache.ts. -/
inductive CacheType
  | address
  | building
  | coordinate
  | realtime
  | static
deriving DecidableEq, Repr

/-- The string a cache type interpolates to in the full key. -/
def CacheType.keyName : CacheType → String
  | .address => "address"
  | .building => "building"
  | .coordinate => "coordinate"
  | .realtime => "realtime"
  | .static => "static"

/-- `CACHE_TTL_POLICIES` (seconds, by type). -/
def CACHE_TTL_POLICIES : CacheType → ℕ
  | .address => 86400
  | .building => 86400
  | .coordinate => 604800
  | .realtime => 300
  | .static => 2592000

/-- `CacheEntry` from types/cache.ts: the manager's own wrapper stored as
the library value. -/
structure CacheEntry (V : Type) where
  key : String
  value : V
  createdAt : ℚ
  expiresAt : ℚ
  hits : ℕ
  size : ℕ
deriving Repr

/-- One entry of the modelled `lru-cache` store: value, computed size,
insertion (or last refreshed) instant, and per-entry ttl in milliseconds
(`0` meaning no automatic expiry). -/
structure LibEntry (V : Type) where
  value : V
  size : ℕ
  start : ℚ
  ttl : ℕ
deriving Repr

/-- The modelled library store, most recently used first. -/
abbrev LibCache (V : Type) := List (String × LibEntry V)

/-- Cumulative computed size (`calculatedSize`). -/
def totalSize {V : Type} (c : LibCache V) : ℕ :=
  (c.map (fun p => p.2.size)).sum

/-- Remove every binding of a key. -/
def eraseKey {V : Type} (c : LibCache V) (k : String) : LibCache V :=
  c.filter (fun p => p.1 ≠ k)

/-- The library's eviction loop: while the count or size bound is
exceeded, drop the least-recently-used (last) entry.  `fuel` bounds the
number of iterations; it is instantiated with the list length, after which
the store is empty and the loop condition is false anyway. -/
def evictLoop {V : Type} (maxCount maxSize : ℕ) : ℕ → LibCache V → LibCache V
  | 0, c => c
  | fuel + 1, c =>
    if maxCount < c.length ∨ maxSize < totalSize c then
      evictLoop maxCount maxSize fuel c.dropLast
    else c

/-- Restore the count and size bounds by LRU eviction. -/
def enforceBounds {V : Type} (maxCount maxSize : ℕ) (c : LibCache V) : LibCache V :=
  evictLoop maxCount maxSize c.length c

/-- The library's `set`: an item larger than `maxSize` is not stored (and
any previous binding is removed); otherwise the new entry becomes the most
recently used and least-recently-used entries are evicted while a bound is
exceeded. -/
def libSet {V : Type} (maxCount maxSize : ℕ) (c : LibCache V) (k : String)
    (e : LibEntry V) : LibCache V :=
  if maxSize < e.size then eraseKey c k
  else enforceBounds maxCount maxSize ((k, e) :: eraseKey c k)

/-- The library's `get` with `updateAgeOnGet = true`: a stale entry (age
strictly beyond a positive ttl) is removed and reported absent; a fresh hit
refreshes the entry's age and recency. -/
def libGet {V : Type} (c : LibCache V) (k : String) (now : ℚ) :
    Option (LibEntry V) × LibCache V :=
  match c.find? (fun p => p.1 = k) with
  | none => (none, c)
  | some (_, e) =>
    if e.ttl ≠ 0 ∧ (e.ttl : ℚ) < now - e.start then
      (none, eraseKey c k)
    else
      let refreshed := { e with start := now }
      (some refreshed, (k, refreshed) :: eraseKey c k)

/-- The manager's configuration: `max: 1000`. -/
def cacheMax : ℕ := 1000

/-- The manager's configuration: `maxSize: 50 * 1024 * 1024`. -/
def cacheMaxSize : ℕ := 50 * 1024 * 1024

/-- `buildKey`: `` `${type}:${key}` ``. -/
def buildKey (t : CacheType) (key : String) : String :=
  t.keyName ++ ":" ++ key

/-- `getTTL`: the custom ttl (seconds) if supplied, else the type's policy
ttl, converted to milliseconds. -/
def getTTL (t : CacheType) (customTTL : Option ℕ) : ℕ :=
  match customTTL with
  | some s => s * 1000
  | none => CACHE_TTL_POLICIES t * 1000

/-- `CacheResult` from types/cache.ts (tier omitted: always `"L1"`). -/
structure CacheResult (V : Type) where
  value : Option V
  hit : Bool
  age : Option ℚ := none
deriving Repr

/-- `LRUCacheManager.set`: build the full key and the `CacheEntry` with
`expiresAt = now + ttl`, compute its size (`sizeCalculation` models
`calculateSize`, i.e. twice the JSON-serialized length), and store it in
the library with that ttl and size. -/
def cacheSet {V : Type} (sizeCalculation : CacheEntry V → ℕ)
    (st : LibCache (CacheEntry V)) (t : CacheType) (key : String) (value : V)
    (now : ℚ) (customTTL : Option ℕ) : LibCache (CacheEntry V) :=
  let fullKey := buildKey t key
  let ttl := getTTL t customTTL
  let entry0 : CacheEntry V :=
    { key := fullKey, value := value, createdAt := now
      expiresAt := now + ttl, hits := 0, size := 0 }
  let entry := { entry0 with size := sizeCalculation entry0 }
  libSet cacheMax cacheMaxSize st fullKey
    { value := entry, size := entry.size, start := now, ttl := ttl }

/-- `LRUCacheManager.get`: consult the library; on a present entry apply
the manager's own expiry double-check (`expiresAt < now` deletes and
misses), otherwise report a hit with the entry's age and bump its hit
counter. -/
def cacheGet {V : Type} (st : LibCache (CacheEntry V)) (t : CacheType)
    (key : String) (now : ℚ) : CacheResult V × LibCache (CacheEntry V) :=
  let fullKey := buildKey t key
  match libGet st fullKey now with
  | (none, st1) => ({ value := none, hit := false }, st1)
  | (some e, st1) =>
    if e.value.expiresAt < now then
      ({ value := none, hit := false }, eraseKey st1 fullKey)
    else
      let bumped := { e with value := { e.value with hits := e.value.hits + 1 } }
      ({ value := some e.value.value, hit := true
         age := some (now - e.value.createdAt) },
       (fullKey, bumped) :: eraseKey st1 fullKey)

/-- Looking a key up after erasing it misses. -/
theorem mapGet_eraseKey {V : Type} (c : LibCache V) (k : String) :
    mapGet (eraseKey c k) k = none := by
  unfold mapGet eraseKey
  induction c with
  | nil => rfl
  | cons p rest ih =>
    by_cases hp : p.1 = k
    · simp [List.filter, hp, ih]
    · simp [List.filter, hp, List.find?, mapGet, ih]

/-- The eviction loop never evicts a freshly inserted entry that fits the
bounds on its own: it only drops from the tail and stops at the singleton. -/
theorem evictLoop_cons {V : Type} (maxCount maxSize : ℕ) (k : String)
    (e : LibEntry V) (hsize : e.size ≤ maxSize) (hcount : 1 ≤ maxCount) :
    ∀ (fuel : ℕ) (rest : LibCache V), ∃ tail,
      evictLoop maxCount maxSize fuel ((k, e) :: rest) = (k, e) :: tail := by
  intro fuel
  induction fuel with
  | zero => exact fun rest => ⟨rest, rfl⟩
  | succ fuel ih =>
    intro rest
    unfold evictLoop
    by_cases hcond :
        maxCount < ((k, e) :: rest).length ∨ maxSize < totalSize ((k, e) :: rest)
    · rw [if_pos hcond]
      match rest with
      | [] =>
        exfalso
        rcases hcond with h | h
        · simp at h
          omega
        · simp [totalSize] at h
          omega
      | r :: rs =>
        rw [List.dropLast_cons₂]
        exact ih ((r :: rs).dropLast)
    · rw [if_neg hcond]
      exact ⟨rest, rfl⟩

/-- After the eviction loop runs with fuel at least the list length, both
cache bounds hold. -/
theorem evictLoop_bounds {V : Type} (maxCount maxSize : ℕ) :
    ∀ (fuel : ℕ) (c : LibCache V), c.length ≤ fuel →
      (evictLoop maxCount maxSize fuel c).length ≤ maxCount ∧
      totalSize (evictLoop maxCount maxSize fuel c) ≤ maxSize := by
  intro fuel
  induction fuel with
  | zero =>
    intro c hc
    have : c = [] := List.eq_nil_of_length_eq_zero (by omega)
    subst this
    constructor <;> simp [evictLoop, totalSize]
  | succ fuel ih =>
    intro c hc
    unfold evictLoop
    match c with
    | [] => constructor <;> simp [totalSize]
    | p :: rest =>
      by_cases hcond :
          maxCount < (p :: rest).length ∨ maxSize < totalSize (p :: rest)
      · rw [if_pos hcond]
        apply ih
        rw [List.length_dropLast]
        simp only [List.length_cons] at hc ⊢
        omega
      · rw [if_neg hcond]
        push_neg at hcond
        exact ⟨hcond.1, hcond.2⟩

/-- Erasing a key can only shrink the store. -/
theorem eraseKey_bounds {V : Type} (c : LibCache V) (k : String) :
    (eraseKey c k).length ≤ c.length ∧ totalSize (eraseKey c k) ≤ totalSize c := by
  unfold eraseKey
  constructor
  · exact List.length_filter_le _ _
  · induction c with
    | nil => simp [totalSize]
    | cons p rest ih =>
      have hmono : totalSize rest ≤ totalSize (p :: rest) := by
        simp only [totalSize, List.map_cons, List.sum_cons]
        omega
      by_cases hp : p.1 = k
      · have hfil : List.filter (fun q => decide (q.1 ≠ k)) (p :: rest) =
            List.filter (fun q => decide (q.1 ≠ k)) rest := by
          simp [List.filter_cons, hp]
        rw [hfil]
        exact le_trans ih hmono
      · have hfil : List.filter (fun q => decide (q.1 ≠ k)) (p :: rest) =
            p :: List.filter (fun q => decide (q.1 ≠ k)) rest := by
          simp [List.filter_cons, hp]
        rw [hfil]
        simp only [totalSize, List.map_cons, List.sum_cons]
        exact Nat.add_le_add_left ih p.2.size

/-- A single `set` restores both cache bounds whatever state it starts
from, provided the previous state satisfied them (the oversized-item branch
merely erases, every other branch runs the eviction loop). -/
theorem libSet_bounds {V : Type} (c : LibCache V) (k : String) (e : LibEntry V)
    (hc : c.length ≤ cacheMax ∧ totalSize c ≤ cacheMaxSize) :
    (libSet cacheMax cacheMaxSize c k e).length ≤ cacheMax ∧
    totalSize (libSet cacheMax cacheMaxSize c k e) ≤ cacheMaxSize := by
  unfold libSet
  by_cases hbig : cacheMaxSize < e.size
  · rw [if_pos hbig]
    have := eraseKey_bounds c k
    exact ⟨le_trans this.1 hc.1, le_trans this.2 hc.2⟩
  · rw [if_neg hbig]
    exact evictLoop_bounds cacheMax cacheMaxSize _ _ le_rfl

/-- One recorded `set` call: the arguments of `LRUCacheManager.set`. -/
structure SetCall (V : Type) where
  t : CacheType
  key : String
  value : V
  now : ℚ
  customTTL : Option ℕ := none

/-- Replay a sequence of `set` calls against the empty cache. -/
def runSets {V : Type} (sizeCalculation : CacheEntry V → ℕ)
    (calls : List (SetCall V)) : LibCache (CacheEntry V) :=
  calls.foldl
    (fun st call =>
      cacheSet sizeCalculation st call.t call.key call.value call.now call.customTTL)
    []

/-- **C9.** After any sequence of `set` operations the cache holds at most
1,000 entries and at most 50 MiB of cumulative computed size: whenever a
bound would be exceeded the least-recently-used entry is evicted (and an
entry that alone exceeds the size bound is not stored at all). -/
theorem cache_bounds {V : Type} (sizeCalculation : CacheEntry V → ℕ)
    (calls : List (SetCall V)) :
    (runSets sizeCalculation calls).length ≤ 1000 ∧
    totalSize (runSets sizeCalculation calls) ≤ 50 * 1024 * 1024 := by
  unfold runSets
  have main : ∀ (cs : List (SetCall V)) (st : LibCache (CacheEntry V)),
      st.length ≤ cacheMax ∧ totalSize st ≤ cacheMaxSize →
      (cs.foldl (fun st call =>
        cacheSet sizeCalculation st call.t call.key call.value call.now
          call.customTTL) st).length ≤ cacheMax ∧
      totalSize (cs.foldl (fun st call =>
        cacheSet sizeCalculation st call.t call.key call.value call.now
          call.customTTL) st) ≤ cacheMaxSize := by
    intro cs
    induction cs with
    | nil => exact fun st h => h
    | cons call rest ih =>
      intro st h
      exact ih _ (libSet_bounds _ _ _ h)
  exact main calls [] ⟨by simp [cacheMax], by simp [totalSize, cacheMaxSize]⟩

/-- `libGet` finding a fresh entry at the front: recency and age refresh. -/
theorem libGet_head_fresh {V : Type} (k : String) (e : LibEntry V)
    (rest : LibCache V) (now : ℚ)
    (hfresh : ¬ (e.ttl ≠ 0 ∧ (e.ttl : ℚ) < now - e.start)) :
    libGet ((k, e) :: rest) k now =
      (some { e with start := now },
       (k, { e with start := now }) :: eraseKey ((k, e) :: rest) k) := by
  unfold libGet
  rw [List.find?_cons_of_pos _ (by simp)]
  simp only [if_neg hfresh]

/-- `libGet` finding a stale entry at the front: removal and a miss. -/
theorem libGet_head_stale {V : Type} (k : String) (e : LibEntry V)
    (rest : LibCache V) (now : ℚ)
    (hstale : e.ttl ≠ 0 ∧ (e.ttl : ℚ) < now - e.start) :
    libGet ((k, e) :: rest) k now = (none, eraseKey ((k, e) :: rest) k) := by
  unfold libGet
  rw [List.find?_cons_of_pos _ (by simp)]
  simp only [if_pos hstale]

/-- The round-trip behaviour claim C8 ascribes to the cache: a `set`
immediately followed by a `get` of the same type and key hits with the
stored value (and age 0), while a `get` performed strictly after the
effective TTL has elapsed misses and removes the entry. -/
def CacheTTLClaim {V : Type} (sizeCalculation : CacheEntry V → ℕ)
    (st : LibCache (CacheEntry V)) (t : CacheType) (key : String) (v : V)
    (now : ℚ) (customTTL : Option ℕ) : Prop :=
  let st1 := cacheSet sizeCalculation st t key v now customTTL
  ((cacheGet st1 t key now).1.hit = true ∧
   (cacheGet st1 t key now).1.value = some v ∧
   (cacheGet st1 t key now).1.age = some 0) ∧
  (∀ later : ℚ, now + (getTTL t customTTL : ℚ) < later →
    (cacheGet st1 t key later).1.hit = false ∧
    (cacheGet st1 t key later).1.value = none ∧
    mapGet (cacheGet st1 t key later).2 (buildKey t key) = none)

/-- **C8.** For every cache type, key and value, `set` immediately followed
by `get` returns `{hit: true, value: v}`, and a `get` performed after the
type's TTL (or the supplied custom TTL) has elapsed since the `set` returns
`{hit: false}` and removes the expired entry.  The hypothesis is that the
computed size of the freshly built entry fits the 50 MiB cap (an oversized
item is rejected by the store). -/
theorem cache_ttl_spec {V : Type} (sizeCalculation : CacheEntry V → ℕ)
    (st : LibCache (CacheEntry V)) (t : CacheType) (key : String) (v : V)
    (now : ℚ) (customTTL : Option ℕ)
    (hsize : sizeCalculation
      { key := buildKey t key, value := v, createdAt := now
        expiresAt := now + (getTTL t customTTL : ℚ), hits := 0, size := 0 }
      ≤ cacheMaxSize) :
    CacheTTLClaim sizeCalculation st t key v now customTTL := by
  unfold CacheTTLClaim
  set fullKey := buildKey t key with hfk
  set ttl := getTTL t customTTL with httl
  set entry0 : CacheEntry V :=
    { key := fullKey, value := v, createdAt := now
      expiresAt := now + ttl, hits := 0, size := 0 } with he0
  set entry : CacheEntry V := { entry0 with size := sizeCalculation entry0 }
    with hent
  set le : LibEntry (CacheEntry V) :=
    { value := entry, size := entry.size, start := now, ttl := ttl } with hle
  have hset : cacheSet sizeCalculation st t key v now customTTL =
      enforceBounds cacheMax cacheMaxSize ((fullKey, le) :: eraseKey st fullKey) := by
    unfold cacheSet libSet
    rw [if_neg (by simp [hle, hent, he0]; exact hsize)]
  obtain ⟨tail, htail⟩ := evictLoop_cons cacheMax cacheMaxSize fullKey le
    (by simp [hle, hent, he0]; exact hsize) (by norm_num [cacheMax])
    ((fullKey, le) :: eraseKey st fullKey).length (eraseKey st fullKey)
  have hst1 : cacheSet sizeCalculation st t key v now customTTL =
      (fullKey, le) :: tail := by
    rw [hset]
    exact htail
  rw [hst1]
  constructor
  · have hfresh : ¬ (le.ttl ≠ 0 ∧ (le.ttl : ℚ) < now - le.start) := by
      rintro ⟨-, habs⟩
      rw [hle] at habs
      simp only at habs
      have : (0 : ℚ) ≤ (ttl : ℚ) := Nat.cast_nonneg ttl
      linarith [habs, sub_self now]
    unfold cacheGet
    simp only [← hfk, libGet_head_fresh fullKey le tail now hfresh]
    have hrefresh : ({ le with start := now } : LibEntry (CacheEntry V)) = le := by
      rw [hle]
    rw [hrefresh]
    have hnotexp : ¬ le.value.expiresAt < now := by
      rw [hle, hent, he0]
      simp only [not_lt]
      have : (0 : ℚ) ≤ (ttl : ℚ) := Nat.cast_nonneg ttl
      linarith
    simp only [if_neg hnotexp, hle, hent, he0, sub_self]
    refine ⟨by trivial, by trivial, by trivial⟩
  · intro later hlater
    by_cases h0 : ttl = 0
    · have hfresh : ¬ (le.ttl ≠ 0 ∧ (le.ttl : ℚ) < later - le.start) := by
        rintro ⟨hne, -⟩
        rw [hle] at hne
        exact hne h0
      unfold cacheGet
      simp only [← hfk, libGet_head_fresh fullKey le tail later hfresh]
      have hexp : ({ le with start := later } : LibEntry (CacheEntry V)).value.expiresAt
          < later := by
        rw [hle, hent, he0]
        simp only
        linarith
      simp only [if_pos hexp]
      refine ⟨by trivial, by trivial, mapGet_eraseKey _ _⟩
    · have hstale : le.ttl ≠ 0 ∧ (le.ttl : ℚ) < later - le.start := by
        constructor
        · rw [hle]
          exact h0
        · rw [hle]
          simp only
          linarith
      unfold cacheGet
      simp only [← hfk, libGet_head_stale fullKey le tail later hstale]
      refine ⟨by trivial, by trivial, mapGet_eraseKey _ _⟩

/-- Witness for C8: a concrete round trip on the `address` cache with a
constant size function — the immediate `get` at time 0 hits with the stored
value, and any `get` after the 86,400-second address TTL misses. -/
theorem cache_ttl_spec_witness :
    ((fun _ => 100) : CacheEntry ℕ → ℕ)
      { key := buildKey CacheType.address "seoul-123", value := 7, createdAt := 0
        expiresAt := 0 + (getTTL CacheType.address none : ℚ), hits := 0, size := 0 }
      ≤ cacheMaxSize ∧
    CacheTTLClaim (fun _ => 100) [] CacheType.address "seoul-123" 7 0 none :=
  ⟨by norm_num [cacheMaxSize],
   cache_ttl_spec (fun _ => 100) [] CacheType.address "seoul-123" 7 0 none
     (by norm_num [cacheMaxSize])⟩

end PublicAPI
